import Mathlib

/-!
Verification of the kobo-to-calibre matching / update core.

Shallow embedding notes:
* Python strings are modelled as Lean `String` / `List Char`, with ASCII
  semantics for the character classes used by the source (`\w`, `\s`,
  `str.lower`, `str.title`).  All inputs exercised by the theorems are ASCII.
* sqlite queries are modelled by the list of records they return; the
  external `calibredb` tool is modelled as a function from a command to a
  process result, constrained only by the interface contract.
* Python dicts keep insertion order; grouping by dict is modelled by
  first-occurrence key lists plus `List.filter` partitions.
* Python sets are modelled as first-occurrence-deduplicated lists; only
  their membership is specified.
-/

/-- ASCII model of Python's whitespace class `\s` (and of `str.strip`). -/
def isPyWs (c : Char) : Bool :=
  c == ' ' || c == '\t' || c == '\n' || c == '\r' || c == '\x0b' || c == '\x0c'

/-- ASCII model of Python's word class `\w`: letters, digits and underscore. -/
def isWordChar (c : Char) : Bool :=
  c.isAlphanum || c == '_'

/-- `str.strip` on the character list: drop whitespace from both ends. -/
def trimChars (l : List Char) : List Char :=
  ((l.dropWhile isPyWs).reverse.dropWhile isPyWs).reverse

/-- `str.lower`, ASCII model. -/
def strLower (s : String) : String :=
  String.mk (s.data.map Char.toLower)

/-- `str.strip`, ASCII model. -/
def strTrim (s : String) : String :=
  String.mk (trimChars s.data)

/-- Worker for `re.sub(r'\s+', ' ', _)`: the flag records whether the
previous character was whitespace (already emitted as one space). -/
def collapseAux : Bool → List Char → List Char
  | _, [] => []
  | prev, c :: rest =>
    if isPyWs c then
      if prev then collapseAux true rest else ' ' :: collapseAux true rest
    else c :: collapseAux false rest

/-- `re.sub(r'\s+', ' ', _)`: collapse every whitespace run to one space. -/
def collapseWs (l : List Char) : List Char :=
  collapseAux false l

/-- `str.replace("| ", "")`: remove every occurrence, left to right. -/
def removeBarSpace : List Char → List Char
  | '|' :: ' ' :: rest => removeBarSpace rest
  | c :: rest => c :: removeBarSpace rest
  | [] => []

/-- `str.replace("| ", "")` on `String`. -/
def removeBarSpaceStr (s : String) : String :=
  String.mk (removeBarSpace s.data)

/-- Worker for Python `str.title`: the flag records whether the previous
character was a letter (so we are inside a word). -/
def titleAux : Bool → List Char → List Char
  | _, [] => []
  | prevAlpha, c :: rest =>
    if c.isAlpha then
      (if prevAlpha then c.toLower else c.toUpper) :: titleAux true rest
    else c :: titleAux false rest

/-- Python `str.title`, ASCII model. -/
def titleStr (s : String) : String :=
  String.mk (titleAux false s.data)

/-- Boolean list-prefix test. -/
def leadsWith : List Char → List Char → Bool
  | [], _ => true
  | _ :: _, [] => false
  | p :: ps, c :: cs => p == c && leadsWith ps cs

/-- Boolean substring test (Python `in` on strings). -/
def containsSub (pat : List Char) : List Char → Bool
  | [] => leadsWith pat []
  | c :: rest => leadsWith pat (c :: rest) || containsSub pat rest

/-- `str.split(',')` on the character list. -/
def splitComma : List Char → List (List Char)
  | [] => [[]]
  | c :: rest =>
    match splitComma rest with
    | [] => [[c]]
    | h :: t => if c = ',' then [] :: h :: t else (c :: h) :: t

/-- `','.join(values)`. -/
def joinComma (values : List String) : String :=
  String.intercalate "," values

/-- Replace a character that is neither word-class nor whitespace by a
space: `re.sub(r'[^\w\s]', ' ', _)` on one character. -/
def keepWordWs (c : Char) : Char :=
  if isWordChar c || isPyWs c then c else ' '

/-- Strip one leading article among `"the "`, `"a "`, `"an "`, first match
wins (the loop over `articles` with `break` in `normalize_title`). -/
def stripArticleChars (l : List Char) : List Char :=
  if leadsWith "the ".data l then l.drop 4
  else if leadsWith "a ".data l then l.drop 2
  else if leadsWith "an ".data l then l.drop 3
  else l

/-- `BookMatcher.normalize_title` from `src/book_matcher.py`: lowercase,
replace non-word non-space characters by a space, collapse whitespace,
strip one leading article, strip. -/
def normalize_title (title : String) : String :=
  if title = "" then ""
  else
    let l1 := title.data.map Char.toLower
    let l2 := l1.map keepWordWs
    let l3 := collapseWs l2
    let l4 := stripArticleChars l3
    String.mk (trimChars l4)

/-- `BookMatcher.normalize_author` from `src/book_matcher.py`: lowercase,
strip, collapse whitespace, and reorder `"Last, First"` to `"First Last"`
when the string splits into exactly two comma-separated parts. -/
def normalize_author (author : String) : String :=
  if author = "" then ""
  else
    let l := collapseWs (trimChars (author.data.map Char.toLower))
    if ',' ∈ l then
      let parts := (splitComma l).map trimChars
      if parts.length = 2 then
        String.mk (parts.getD 1 [] ++ ' ' :: parts.getD 0 [])
      else String.mk l
    else String.mk l

/-- The title normalization exactly as claim C5 words it: a character that
is not a letter, a digit, or whitespace becomes a space (so underscore is
replaced too). -/
def normalizeTitleClaim (title : String) : String :=
  let l1 := title.data.map Char.toLower
  let l2 := l1.map (fun c => if c.isAlpha || c.isDigit || isPyWs c then c else ' ')
  let l3 := collapseWs l2
  let l4 := stripArticleChars l3
  String.mk (trimChars l4)

/-- The title normalization as amended: a character that is not a letter, a
digit, an underscore, or whitespace becomes a space. -/
def normalizeTitleAmended (title : String) : String :=
  let l1 := title.data.map Char.toLower
  let l2 := l1.map (fun c => if c.isAlpha || c.isDigit || c == '_' || isPyWs c then c else ' ')
  let l3 := collapseWs l2
  let l4 := stripArticleChars l3
  String.mk (trimChars l4)

/-- A book row read from `KoboReader.sqlite` (`kobo_reader.KoboBook`).
The source also carries no other per-book fields used by the core. -/
structure KoboBook where
  content_id : String
  title : String
  author : String
  read_status : Int
  percent_read : Int
  date_last_read : Option String
  collections : List String
deriving DecidableEq

/-- One row of the matcher's SQL query over a Calibre `metadata.db`:
book id, title, and the `GROUP_CONCAT` of author names (NULL when the
book has no linked author). -/
structure CalibreRecord where
  id : Nat
  title : String
  authors : Option String
deriving DecidableEq

/-- `library_manager.CalibreLibrary`, with the records behind its
`metadata.db` inlined as `books` (the sqlite file is modelled by the rows
the matcher's query returns; the filesystem paths play no role in the
claims). -/
structure CalibreLibrary where
  name : String
  is_primary : Bool
  books : List CalibreRecord
deriving DecidableEq

/-- `book_matcher.BookMatch`.  The source also stores a constant float
`match_confidence = 1.0`, not modelled (floating point plays no role). -/
structure BookMatch where
  kobo_book : KoboBook
  calibre_book_id : Nat
  calibre_title : String
  calibre_authors : String
  library : CalibreLibrary
  match_type : String
deriving DecidableEq

/-- `book_matcher.BookConflict` (`matches` is a Lean keyword, hence the
field name `conflict_matches`). -/
structure BookConflict where
  kobo_book : KoboBook
  conflict_matches : List BookMatch
  resolution : Option String
  chosen_library : Option String
deriving DecidableEq

/-- The registry view used by the matcher: `get_primary_library` and
`get_secondary_libraries` of `library_manager.LibraryManager`. -/
structure LibraryManagerM where
  primary : Option CalibreLibrary
  secondaries : List CalibreLibrary
deriving DecidableEq

/-- The exact-equality test of `find_book_in_library`: both normalized
title and normalized author agree (a NULL author list is read as `""`). -/
def recordMatches (kb : KoboBook) (b : CalibreRecord) : Bool :=
  (normalize_title b.title == normalize_title kb.title) &&
  (normalize_author (b.authors.getD "") == normalize_author kb.author)

/-- `BookMatcher.find_book_in_library`: scan the library's records in
order and return a `BookMatch` for the first record whose normalized
title and author both equal the Kobo book's, else `none`. -/
def find_book_in_library (kb : KoboBook) (lib : CalibreLibrary) : Option BookMatch :=
  match lib.books.find? (recordMatches kb) with
  | some b => some ⟨kb, b.id, b.title, b.authors.getD "", lib, "exact"⟩
  | none => none

/-- `BookMatcher.find_book_across_libraries`, instrumented: the second
component lists the names of the libraries actually queried, in order. -/
def find_book_across_libraries (mgr : LibraryManagerM) (kb : KoboBook) :
    List BookMatch × List String :=
  match mgr.primary with
  | some p =>
    match find_book_in_library kb p with
    | some m => ([m], [p.name])
    | none =>
      (mgr.secondaries.filterMap (fun l => find_book_in_library kb l),
       p.name :: mgr.secondaries.map (fun l => l.name))
  | none =>
    (mgr.secondaries.filterMap (fun l => find_book_in_library kb l),
     mgr.secondaries.map (fun l => l.name))

/-- The match found in the primary library, if any. -/
def primaryFind (mgr : LibraryManagerM) (kb : KoboBook) : Option BookMatch :=
  mgr.primary.bind (fun p => find_book_in_library kb p)

/-- All matches found among the secondary libraries, in registry order. -/
def secondaryMatches (mgr : LibraryManagerM) (kb : KoboBook) : List BookMatch :=
  mgr.secondaries.filterMap (fun l => find_book_in_library kb l)

/-- `BookMatcher.match_all_books`: classify every book into matched
(exactly one match), unmatched (none), or a conflict (two or more). -/
def match_all_books (mgr : LibraryManagerM) :
    List KoboBook → List BookMatch × List KoboBook × List BookConflict
  | [] => ([], [], [])
  | kb :: rest =>
    let found := (find_book_across_libraries mgr kb).1
    let r := match_all_books mgr rest
    if found.length = 1 then (found ++ r.1, r.2.1, r.2.2)
    else if found.length = 0 then (r.1, kb :: r.2.1, r.2.2)
    else (r.1, r.2.1, ⟨kb, found, none, none⟩ :: r.2.2)

/-- The `rating_patterns` list of `CalibreUpdater._get_rating_collections`. -/
def ratingPatterns : List String :=
  ["| evergreen", "| absolute favorite", "| favorite", "| good",
   "evergreen", "absolute favorite", "favorites", "great", "favorite"]

/-- The literal exclusion list in `CalibreUpdater._get_genre_collections`. -/
def genreExclusion : List String :=
  ["evergreen", "absolute favorite", "favorites", "great", "favorite", "good"]

/-- The clean-up applied to a recognized rating collection name:
`col_lower.replace("| ", "").title()`, then `"Favorite" -> "Favorites"`
and `"Good" -> "Great"`. -/
def canonicalRating (colLower : String) : String :=
  let clean := titleStr (removeBarSpaceStr colLower)
  if clean = "Favorite" then "Favorites"
  else if clean = "Good" then "Great"
  else clean

/-- `CalibreUpdater._get_rating_collections`: keep the collections whose
lowercased, stripped form is one of the `rating_patterns`, cleaned up. -/
def getRatingCollections (collections : List String) : List String :=
  collections.filterMap (fun col =>
    let colLower := strTrim (strLower col)
    if colLower ∈ ratingPatterns.map strLower then some (canonicalRating colLower)
    else none)

/-- `CalibreUpdater._get_genre_collections`: strip the `"| "` marker, and
keep the collections that are neither (case-insensitively) a produced
rating name nor in the fixed exclusion list. -/
def getGenreCollections (collections : List String) : List String :=
  let ratingLower := (getRatingCollections collections).map strLower
  collections.filterMap (fun col =>
    let colClean := strTrim (removeBarSpaceStr col)
    if strLower colClean ∉ ratingLower ∧ strLower colClean ∉ genreExclusion then
      some colClean
    else none)

/-- The per-label rating rule of the amended claim C4: a label is a rating
iff its lowercased, stripped form is one of the nine fixed patterns. -/
def ratingOf (col : String) : Option String :=
  let colLower := strTrim (strLower col)
  if colLower ∈ ratingPatterns then some (canonicalRating colLower) else none

/-- The per-label genre rule of the amended claim C4: a label is a genre
iff its cleaned, lowercased form is outside the fixed exclusion list. -/
def genreOf (col : String) : Option String :=
  let colClean := strTrim (removeBarSpaceStr col)
  if strLower colClean ∈ genreExclusion then none else some colClean

/-- Result of one external-tool invocation: exit code and stderr text. -/
structure CmdResult where
  exitCode : Int
  stderr : String

/-- The external update tool's add-custom-column operation, as a function
from the requested label and the store's current column labels to the new
column labels and the process result. -/
def ColumnTool : Type :=
  String → List String → List String × CmdResult

/-- The `"already exists" in result.stderr.lower()` test of
`create_custom_column`. -/
def hasAlreadyExists (stderr : String) : Bool :=
  containsSub "already exists".data (strLower stderr).data

/-- `CalibreUpdater.create_custom_column`, success logic: exit code 0, or
a nonzero exit whose lowercased stderr contains `"already exists"`, count
as success. -/
def create_custom_column (tool : ColumnTool) (st : List String) (label : String) :
    List String × Bool :=
  let r := tool label st
  (r.1, r.2.exitCode == 0 || hasAlreadyExists r.2.stderr)

/-- External mutating calls issued by the update applier. -/
inductive Effect where
  | backup (lib : String)
  | provision (lib : String) (column : String)
  | write (lib : String) (bookId : Nat) (column : String) (value : String)
deriving DecidableEq

/-- `CalibreUpdater.ensure_custom_columns`: check which of the two
classification columns exist (one snapshot read), create the missing
ones, and report overall success; also returns the provisioning calls
issued.  `lib` is the store's name, `st` its current column labels. -/
def ensure_custom_columns (tool : ColumnTool) (lib : String) (st : List String) :
    List String × Bool × List Effect :=
  let hasR := "myratings" ∈ st
  let hasG := "my_genres" ∈ st
  let s1 := if hasR then (st, true, ([] : List Effect))
    else
      let c := create_custom_column tool st "myratings"
      (c.1, c.2, [Effect.provision lib "myratings"])
  let s2 := if hasG then (s1.1, true, ([] : List Effect))
    else
      let c := create_custom_column tool s1.1 "my_genres"
      (c.1, c.2, [Effect.provision lib "my_genres"])
  (s2.1, s1.2.1 && s2.2.1, s1.2.2 ++ s2.2.2)

/-- The external world as the update applier sees it: per-store
connectivity-probe and backup outcomes, the initial custom-column labels
of each store, the add-column tool, and the per-field-write outcomes. -/
structure UpdateEnv where
  connOk : String → Bool
  backupOk : String → Bool
  columns : String → List String
  tool : ColumnTool
  writeOk : String → Nat → String → Bool

/-- `CalibreUpdater._update_custom_column`: an empty value list issues no
call and succeeds; otherwise one field-write call with the comma-joined
values is issued, succeeding as the environment decides. -/
def update_custom_column (env : UpdateEnv) (libName : String) (bookId : Nat)
    (column : String) (values : List String) : Bool × List Effect :=
  if values = [] then (true, [])
  else (env.writeOk libName bookId column,
        [Effect.write libName bookId column (joinComma values)])

/-- `CalibreUpdater.update_book_metadata`: classify the book's collections
and write the ratings field then the genres field, stopping at the first
failure; success needs both writes (or their empty no-op skips). -/
def update_book_metadata (env : UpdateEnv) (m : BookMatch) : Bool × List Effect :=
  let ratings := getRatingCollections m.kobo_book.collections
  let genres := getGenreCollections m.kobo_book.collections
  let r1 := update_custom_column env m.library.name m.calibre_book_id "myratings" ratings
  if r1.1 = false then (false, r1.2)
  else
    let r2 := update_custom_column env m.library.name m.calibre_book_id "my_genres" genres
    (r2.1, r1.2 ++ r2.2)

/-- The per-match loop of `bulk_update` for one store, accumulating
(successful, failed, effects). -/
def processMatches (env : UpdateEnv) : List BookMatch → Nat × Nat × List Effect
  | [] => (0, 0, [])
  | m :: rest =>
    let r := update_book_metadata env m
    let acc := processMatches env rest
    if r.1 then (acc.1 + 1, acc.2.1, r.2 ++ acc.2.2)
    else (acc.1, acc.2.1 + 1, r.2 ++ acc.2.2)

/-- One store's share of `bulk_update`: probe the connection, back the
store up, provision the columns; a failure of any of these fails the
whole partition and issues no field write; otherwise update each match. -/
def processLibrary (env : UpdateEnv) (K : String) (part : List BookMatch) :
    Nat × Nat × List Effect :=
  if env.connOk K = false then (0, part.length, [])
  else if env.backupOk K = false then (0, part.length, [])
  else
    let ens := ensure_custom_columns env.tool K (env.columns K)
    if ens.2.1 = false then (0, part.length, Effect.backup K :: ens.2.2)
    else
      let r := processMatches env part
      (r.1, r.2.1, Effect.backup K :: ens.2.2 ++ r.2.2)

/-- Worker for `libKeys`: emit each library name the first time it is
seen (`seen` holds the names already emitted). -/
def libKeysAux (seen : List String) : List BookMatch → List String
  | [] => []
  | m :: rest =>
    if m.library.name ∈ seen then libKeysAux seen rest
    else m.library.name :: libKeysAux (m.library.name :: seen) rest

/-- First-occurrence list of the library names of a match list: the key
order of the Python dict `by_library` in `bulk_update`. -/
def libKeys (ms : List BookMatch) : List String :=
  libKeysAux [] ms

/-- The dict partition of the matches for key `K`. -/
def partitionFor (ms : List BookMatch) (K : String) : List BookMatch :=
  ms.filter (fun m => m.library.name == K)

/-- Whether a store's batch runs (probe, backup and provisioning all
succeed), which is also when `bulk_update` records the store as updated. -/
def storeOkB (env : UpdateEnv) (K : String) : Bool :=
  env.connOk K && env.backupOk K && (ensure_custom_columns env.tool K (env.columns K)).2.1

/-- The loop of `bulk_update` over the per-store partitions, accumulating
(successful, failed, libraries updated, effects). -/
def bulkLoop (env : UpdateEnv) (ms : List BookMatch) :
    List String → Nat × Nat × List String × List Effect
  | [] => (0, 0, [], [])
  | K :: ks =>
    let r := processLibrary env K (partitionFor ms K)
    let rest := bulkLoop env ms ks
    (r.1 + rest.1, r.2.1 + rest.2.1,
     (if storeOkB env K then [K] else []) ++ rest.2.2.1,
     r.2.2 ++ rest.2.2.2)

/-- The statistics dict returned by the update stage.  The Python set
`libraries_updated` is modelled as a deduplicated list; `dry_run` records
the preview flag `_simulate_updates` adds. -/
structure UpdateStats where
  total : Nat
  successful : Nat
  failed : Nat
  libraries_updated : List String
  dry_run : Bool
deriving DecidableEq

/-- `CalibreUpdater.bulk_update`: group the matches by library and process
each partition independently, returning the statistics and the trace of
external mutating calls. -/
def bulk_update (env : UpdateEnv) (ms : List BookMatch) :
    UpdateStats × List Effect :=
  let r := bulkLoop env ms (libKeys ms)
  ({ total := ms.length, successful := r.1, failed := r.2.1,
     libraries_updated := r.2.2.1, dry_run := false }, r.2.2.2)

/-- The orchestrator's state: loaded Kobo books, discovered libraries,
and the current match list (`sync_engine.SyncEngine`). -/
structure SyncState where
  kobo_books : List KoboBook
  libraries : List CalibreLibrary
  matches_found : List BookMatch
deriving DecidableEq

/-- The registry view the matcher gets from the manager after discovery:
the first primary-flagged library, and every non-primary library. -/
def managerOf (libs : List CalibreLibrary) : LibraryManagerM :=
  ⟨libs.find? (fun l => l.is_primary), libs.filter (fun l => l.is_primary = false)⟩

/-- `SyncEngine.match_books`: fails with a precondition error when no
Kobo books are loaded or no libraries are discovered, else matches. -/
def match_books (st : SyncState) :
    Except String (List BookMatch × List KoboBook × List BookConflict) :=
  if st.kobo_books = [] then
    .error "No Kobo books loaded. Call load_kobo_data() first."
  else if st.libraries = [] then
    .error "No libraries discovered. Call discover_libraries() first."
  else .ok (match_all_books (managerOf st.libraries) st.kobo_books)

/-- `SyncEngine._simulate_updates`: statistics assuming every match would
succeed; no external call of any kind is issued on this code path. -/
def simulate_updates (ms : List BookMatch) : UpdateStats × List Effect :=
  ({ total := ms.length, successful := ms.length, failed := 0,
     libraries_updated := libKeys ms, dry_run := true }, [])

/-- `SyncEngine.update_calibre_metadata`: the dry-run branch simulates
before any precondition check; the real branch fails when no matches are
present, else bulk-updates. -/
def update_calibre_metadata (env : UpdateEnv) (dryRun : Bool) (st : SyncState) :
    Except String (UpdateStats × List Effect) :=
  if dryRun then .ok (simulate_updates st.matches_found)
  else if st.matches_found = [] then
    .error "No book matches found. Call match_books() first."
  else .ok (bulk_update env st.matches_found)

/-! ### Concrete fixtures and trace checkers used by the theorems -/

/-- A sample Kobo book used by the witnesses. -/
def kbEx : KoboBook :=
  ⟨"cid1", "The Title", "Smith, Jane", 2, 100, none, ["Evergreen", "sweet fluff"]⟩

/-- A sample Calibre record matching `kbEx` after normalization. -/
def recEx : CalibreRecord := ⟨7, "Title!", some "Jane  Smith"⟩

/-- A sample primary library containing `recEx`. -/
def primEx : CalibreLibrary := ⟨"MCR", true, [recEx]⟩

/-- A sample secondary library that would also match `kbEx`. -/
def secEx : CalibreLibrary := ⟨"Other", false, [recEx]⟩

/-- A registry with a matching primary and a matching secondary. -/
def mgrEx : LibraryManagerM := ⟨some primEx, [secEx]⟩

/-- The match `find_book_in_library kbEx primEx` produces. -/
def mEx : BookMatch := ⟨kbEx, 7, "Title!", "Jane  Smith", primEx, "exact"⟩

/-- A registry with no primary and two matching secondaries. -/
def mgrTwoSec : LibraryManagerM :=
  ⟨none, [⟨"A", false, [recEx]⟩, ⟨"B", false, [recEx]⟩]⟩

/-- An environment whose probes, backups and writes all succeed and whose
tool always reports success; used for concrete instantiations. -/
def envNull : UpdateEnv :=
  ⟨fun _ => true, fun _ => true, fun _ => [],
   fun label st => (label :: st, ⟨0, ""⟩), fun _ _ _ => true⟩

/-- A tool obeying the interface contract: creation succeeds with exit 0,
and a column that already exists yields a nonzero exit with an
`already exists` diagnostic. -/
def toolW : ColumnTool := fun label s =>
  if label ∈ s then (s, ⟨1, "The column already exists"⟩)
  else (label :: s, ⟨0, ""⟩)

/-- Whether an effect is a field write against store `K`. -/
def isWriteTo (K : String) : Effect → Bool
  | Effect.write L _ _ _ => L == K
  | _ => false

/-- Checks, walking the trace left to right, that every field write hits
a store whose backup effect appeared earlier (`backed` holds the stores
already backed up). -/
def writesBackedUpFrom (backed : List String) : List Effect → Bool
  | [] => true
  | Effect.backup L :: rest => writesBackedUpFrom (L :: backed) rest
  | Effect.provision _ _ :: rest => writesBackedUpFrom backed rest
  | Effect.write L _ _ _ :: rest => decide (L ∈ backed) && writesBackedUpFrom backed rest

/-- The stores backed up after a trace runs, given those backed up before. -/
def afterBackups (backed : List String) : List Effect → List String
  | [] => backed
  | Effect.backup L :: rest => afterBackups (L :: backed) rest
  | Effect.provision _ _ :: rest => afterBackups backed rest
  | Effect.write _ _ _ _ :: rest => afterBackups backed rest

/-- A match in the secondary library, for the C7 witness run. -/
def mOther : BookMatch := ⟨kbEx, 7, "Title!", "Jane  Smith", secEx, "exact"⟩

/-- An environment whose connectivity probe fails exactly for `"MCR"`. -/
def envC7 : UpdateEnv :=
  ⟨fun k => !(k == "MCR"), fun _ => true, fun _ => [], toolW, fun _ _ _ => true⟩

/-- The match list of the C7 witness run. -/
def msC7 : List BookMatch := [mEx, mOther]

/-! ### Helper lemmas -/

lemma libKeysAux_mem (l : List BookMatch) :
    ∀ (seen : List String) (s : String),
      s ∈ libKeysAux seen l ↔
        (s ∉ seen ∧ s ∈ l.map (fun m => m.library.name)) := by
  induction l with
  | nil => intro seen s; simp [libKeysAux]
  | cons m rest ih =>
    intro seen s
    by_cases h : m.library.name ∈ seen
    · rw [libKeysAux, if_pos h, ih]
      constructor
      · rintro ⟨hs, hmem⟩
        exact ⟨hs, by simpa using Or.inr (by simpa using hmem)⟩
      · rintro ⟨hs, hmem⟩
        rcases List.mem_map.mp hmem with ⟨mm, hmm, hname⟩
        rcases List.mem_cons.mp hmm with heq | hrest
        · subst heq
          exact absurd (hname ▸ h) hs
        · exact ⟨hs, List.mem_map.mpr ⟨mm, hrest, hname⟩⟩
    · rw [libKeysAux, if_neg h]
      constructor
      · intro hmem
        rcases List.mem_cons.mp hmem with heq | htail
        · subst heq; simp [h]
        · rcases (ih _ _).mp htail with ⟨hs, hmem2⟩
          refine ⟨fun hcon => hs (List.mem_cons_of_mem _ hcon), ?_⟩
          simpa using Or.inr (by simpa using hmem2)
      · rintro ⟨hs, hmem⟩
        rcases List.mem_map.mp hmem with ⟨mm, hmm, hname⟩
        rcases List.mem_cons.mp hmm with heq | hrest
        · subst heq; rw [hname]; exact List.mem_cons_self _ _
        · by_cases hsm : s = m.library.name
          · rw [hsm]; exact List.mem_cons_self _ _
          · refine List.mem_cons_of_mem _ ((ih _ _).mpr ⟨?_, ?_⟩)
            · intro hcon
              rcases List.mem_cons.mp hcon with h1 | h2
              · exact hsm h1
              · exact hs h2
            · exact List.mem_map.mpr ⟨mm, hrest, hname⟩

lemma mem_libKeys (ms : List BookMatch) (s : String) :
    s ∈ libKeys ms ↔ ∃ m ∈ ms, m.library.name = s := by
  rw [libKeys, libKeysAux_mem]
  simp [List.mem_map]

lemma libKeysAux_nodup (l : List BookMatch) :
    ∀ seen : List String, (libKeysAux seen l).Nodup := by
  induction l with
  | nil => intro seen; simp [libKeysAux]
  | cons m rest ih =>
    intro seen
    by_cases h : m.library.name ∈ seen
    · rw [libKeysAux, if_pos h]; exact ih seen
    · rw [libKeysAux, if_neg h]
      refine List.nodup_cons.mpr ⟨?_, ih _⟩
      intro hcon
      exact ((libKeysAux_mem _ _ _).mp hcon).1 (List.mem_cons_self _ _)

lemma libKeys_nodup (ms : List BookMatch) : (libKeys ms).Nodup :=
  libKeysAux_nodup ms []

lemma keepWordWs_char (c : Char) :
    keepWordWs c =
      (if c.isAlpha || c.isDigit || c == '_' || isPyWs c then c else ' ') := by
  simp [keepWordWs, isWordChar, Char.isAlphanum, Bool.or_assoc]

/-! ### C5: title normalization -/

/-- C5 counterexample: the source keeps underscores (Python's `\w` class
contains them), the claim replaces them by spaces, so the two differ on
`"a_b"` (where the claimed form even exposes a spurious article strip). -/
theorem c5_counterexample :
    normalize_title "a_b" = "a_b" ∧ normalizeTitleClaim "a_b" = "b" ∧
    normalize_title "a_b" ≠ normalizeTitleClaim "a_b" := by decide

/-- C5 (amended): `normalize_title` lowercases, replaces every character
that is not a letter, digit, underscore, or whitespace with a space,
collapses whitespace runs, strips one leading article among `"the "`,
`"a "`, `"an "` in that priority order, and trims; and the claim's
concrete example evaluates as stated. -/
theorem c5_normalize_title_amended :
    (∀ s : String, normalize_title s = normalizeTitleAmended s) ∧
    normalize_title "The Desert Here and the Desert Far Away" =
      "desert here and the desert far away" := by
  constructor
  · intro s
    by_cases hs : s = ""
    · subst hs; decide
    · have hfun : keepWordWs =
          (fun c => if c.isAlpha || c.isDigit || c == '_' || isPyWs c then c else ' ') :=
        funext keepWordWs_char
      rw [normalize_title, normalizeTitleAmended, if_neg hs, hfun]
  · decide

/-! ### C3: exact-equality matching in one store -/

/-- C3: `find_book_in_library` returns a match exactly when some record
agrees with the item on both normalized title and normalized author; the
returned match always carries both equalities and match kind `exact` (so
a title-only or author-only agreement never produces a match). -/
theorem c3_exact_match_iff (kb : KoboBook) (lib : CalibreLibrary) :
    ((∃ m, find_book_in_library kb lib = some m) ↔
      ∃ b ∈ lib.books,
        normalize_title b.title = normalize_title kb.title ∧
        normalize_author (b.authors.getD "") = normalize_author kb.author) ∧
    (∀ m, find_book_in_library kb lib = some m →
      normalize_title m.calibre_title = normalize_title kb.title ∧
      normalize_author m.calibre_authors = normalize_author kb.author ∧
      m.match_type = "exact") := by
  have hbool : ∀ b, recordMatches kb b = true ↔
      (normalize_title b.title = normalize_title kb.title ∧
       normalize_author (b.authors.getD "") = normalize_author kb.author) := by
    intro b
    simp [recordMatches]
  cases hfind : lib.books.find? (recordMatches kb) with
  | some b =>
    have hmem : b ∈ lib.books := List.mem_of_find?_eq_some hfind
    have hprop := (hbool b).mp (List.find?_some hfind)
    constructor
    · constructor
      · intro _; exact ⟨b, hmem, hprop⟩
      · intro _
        exact ⟨⟨kb, b.id, b.title, b.authors.getD "", lib, "exact"⟩,
          by simp [find_book_in_library, hfind]⟩
    · intro m hm
      have : some (⟨kb, b.id, b.title, b.authors.getD "", lib, "exact"⟩ : BookMatch)
          = some m := by
        rw [← hm]; simp [find_book_in_library, hfind]
      cases Option.some.inj this
      exact ⟨hprop.1, hprop.2, rfl⟩
  | none =>
    have hall := List.find?_eq_none.mp hfind
    constructor
    · constructor
      · rintro ⟨m, hm⟩
        rw [find_book_in_library, hfind] at hm
        cases hm
      · rintro ⟨b, hb, hprop⟩
        exact absurd ((hbool b).mpr hprop) (by simpa using hall b hb)
    · intro m hm
      rw [find_book_in_library, hfind] at hm
      cases hm

/-! ### C2: primary-store short circuit -/

/-- C2: when the item matches in the primary store,
`find_book_across_libraries` returns exactly that one match and queries
only the primary store; when the primary store yields no match, it
queries every secondary store and collects all of their matches. -/
theorem c2_primary_short_circuit (mgr : LibraryManagerM) (kb : KoboBook)
    (p : CalibreLibrary) (hp : mgr.primary = some p) :
    (∀ m, find_book_in_library kb p = some m →
      find_book_across_libraries mgr kb = ([m], [p.name])) ∧
    (find_book_in_library kb p = none →
      find_book_across_libraries mgr kb =
        (secondaryMatches mgr kb,
         p.name :: mgr.secondaries.map (fun l => l.name))) := by
  constructor
  · intro m hm
    simp [find_book_across_libraries, hp, hm]
  · intro hnone
    simp [find_book_across_libraries, hp, hnone, secondaryMatches]

theorem c2_primary_short_circuit_witness :
    find_book_across_libraries mgrEx kbEx = ([mEx], ["MCR"]) :=
  (c2_primary_short_circuit mgrEx kbEx primEx rfl).1 mEx (by decide)

theorem c3_exact_match_iff_witness :
    ∃ m, find_book_in_library kbEx primEx = some m :=
  (c3_exact_match_iff kbEx primEx).1.mpr (by decide)

/-! ### C6: dry-run update -/

/-- C6: the dry-run update stage returns statistics with every match
counted successful and none failed, issues no external mutating call at
all (empty effect trace, hence no backup, no provisioning call, no field
write), and reports as touched exactly the store names appearing among
the matches. -/
theorem c6_dry_run_preview (env : UpdateEnv) (st : SyncState) :
    update_calibre_metadata env true st =
      Except.ok ({ total := st.matches_found.length,
                   successful := st.matches_found.length,
                   failed := 0,
                   libraries_updated := libKeys st.matches_found,
                   dry_run := true }, ([] : List Effect)) ∧
    (∀ s, s ∈ libKeys st.matches_found ↔
      ∃ m ∈ st.matches_found, m.library.name = s) :=
  ⟨rfl, fun s => mem_libKeys st.matches_found s⟩

/-! ### C9: stage preconditions -/

/-- C9 counterexample: with no matches present, the dry-run update stage
does not fail with a precondition error — it returns a zero-statistics
preview (the dry-run branch runs before the precondition check). -/
theorem c9_counterexample :
    update_calibre_metadata envNull true ⟨[], [], []⟩ =
      Except.ok ({ total := 0, successful := 0, failed := 0,
                   libraries_updated := [], dry_run := true }, []) := rfl

/-- C9 (amended): matching fails with a precondition error naming the
missing prerequisite when no source items are loaded or no stores are
discovered, and the real (non-dry-run) update stage fails naming
`match_books` when no matches are present; the dry-run update stage never
fails, returning the simulated statistics instead. -/
theorem c9_stage_preconditions (env : UpdateEnv) (st : SyncState) :
    (st.kobo_books = [] →
      match_books st = .error "No Kobo books loaded. Call load_kobo_data() first.") ∧
    (st.kobo_books ≠ [] → st.libraries = [] →
      match_books st = .error "No libraries discovered. Call discover_libraries() first.") ∧
    (st.matches_found = [] →
      update_calibre_metadata env false st =
        .error "No book matches found. Call match_books() first.") ∧
    update_calibre_metadata env true st = .ok (simulate_updates st.matches_found) := by
  refine ⟨?_, ?_, ?_, rfl⟩
  · intro h; simp [match_books, h]
  · intro h1 h2; simp [match_books, h1, h2]
  · intro h; simp [update_calibre_metadata, h]

/-! ### C1: conflicts arise exactly from multiple secondary matches -/

lemma across_fst_some (mgr : LibraryManagerM) (kb : KoboBook) (m : BookMatch)
    (hp : primaryFind mgr kb = some m) :
    (find_book_across_libraries mgr kb).1 = [m] := by
  unfold primaryFind at hp
  unfold find_book_across_libraries
  cases hq : mgr.primary with
  | none => rw [hq] at hp; cases hp
  | some p =>
    rw [hq] at hp
    simp only [Option.some_bind] at hp
    simp [hp]

lemma across_fst_none (mgr : LibraryManagerM) (kb : KoboBook)
    (hp : primaryFind mgr kb = none) :
    (find_book_across_libraries mgr kb).1 = secondaryMatches mgr kb := by
  unfold primaryFind at hp
  unfold find_book_across_libraries secondaryMatches
  cases hq : mgr.primary with
  | none => simp
  | some p =>
    rw [hq] at hp
    simp only [Option.some_bind] at hp
    simp [hp]

lemma conflicts_mem (mgr : LibraryManagerM) (books : List KoboBook) (kb : KoboBook) :
    (∃ c ∈ (match_all_books mgr books).2.2, c.kobo_book = kb) ↔
      (kb ∈ books ∧ 2 ≤ ((find_book_across_libraries mgr kb).1).length) := by
  induction books with
  | nil => simp [match_all_books]
  | cons b rest ih =>
    rw [match_all_books]
    split
    · rename_i h1
      rw [ih]
      constructor
      · rintro ⟨hmem, hlen⟩
        exact ⟨List.mem_cons_of_mem _ hmem, hlen⟩
      · rintro ⟨hmem, hlen⟩
        rcases List.mem_cons.mp hmem with heq | hrest
        · subst heq; omega
        · exact ⟨hrest, hlen⟩
    · split
      · rename_i h1 h0
        rw [ih]
        constructor
        · rintro ⟨hmem, hlen⟩
          exact ⟨List.mem_cons_of_mem _ hmem, hlen⟩
        · rintro ⟨hmem, hlen⟩
          rcases List.mem_cons.mp hmem with heq | hrest
          · subst heq; omega
          · exact ⟨hrest, hlen⟩
      · rename_i h1 h0
        constructor
        · rintro ⟨c, hc, hcb⟩
          rcases List.mem_cons.mp hc with heq | hrest
          · subst heq
            simp only at hcb
            subst hcb
            exact ⟨List.mem_cons_self _ _, by omega⟩
          · have := ih.mp ⟨c, hrest, hcb⟩
            exact ⟨List.mem_cons_of_mem _ this.1, this.2⟩
        · rintro ⟨hmem, hlen⟩
          rcases List.mem_cons.mp hmem with heq | hrest
          · subst heq
            exact ⟨⟨kb, (find_book_across_libraries mgr kb).1, none, none⟩,
              List.mem_cons_self _ _, rfl⟩
          · obtain ⟨c, hc, hcb⟩ := ih.mpr ⟨hrest, hlen⟩
            exact ⟨c, List.mem_cons_of_mem _ hc, hcb⟩

lemma matched_mem_of_found (mgr : LibraryManagerM) (books : List KoboBook)
    (kb : KoboBook) (m : BookMatch) (hmem : kb ∈ books)
    (hfound : (find_book_across_libraries mgr kb).1 = [m]) :
    m ∈ (match_all_books mgr books).1 := by
  induction books with
  | nil => cases hmem
  | cons b rest ih =>
    rw [match_all_books]
    rcases List.mem_cons.mp hmem with heq | hrest
    · subst heq
      rw [hfound]
      simp
    · split
      · exact List.mem_append_right _ (ih hrest)
      · split
        · exact ih hrest
        · exact ih hrest

/-- C1: `match_all_books` produces a conflict for an item exactly when
the primary store yields no match and at least two secondary stores
match; and a single secondary-store match yields that one match in the
matched list and never a conflict. -/
theorem c1_conflict_iff (mgr : LibraryManagerM) (books : List KoboBook)
    (kb : KoboBook) (hkb : kb ∈ books) :
    ((∃ c ∈ (match_all_books mgr books).2.2, c.kobo_book = kb) ↔
      (primaryFind mgr kb = none ∧ 2 ≤ (secondaryMatches mgr kb).length)) ∧
    (∀ m, primaryFind mgr kb = none → secondaryMatches mgr kb = [m] →
      m ∈ (match_all_books mgr books).1 ∧
      ¬∃ c ∈ (match_all_books mgr books).2.2, c.kobo_book = kb) := by
  constructor
  · rw [conflicts_mem]
    constructor
    · rintro ⟨_, hlen⟩
      cases hp : primaryFind mgr kb with
      | some m =>
        rw [across_fst_some mgr kb m hp] at hlen
        simp at hlen
      | none =>
        rw [across_fst_none mgr kb hp] at hlen
        exact ⟨rfl, hlen⟩
    · rintro ⟨hnone, hlen⟩
      refine ⟨hkb, ?_⟩
      rw [across_fst_none mgr kb hnone]
      exact hlen
  · intro m hnone hsec
    have hfound : (find_book_across_libraries mgr kb).1 = [m] :=
      (across_fst_none mgr kb hnone).trans hsec
    constructor
    · exact matched_mem_of_found mgr books kb m hkb hfound
    · rw [conflicts_mem, hfound]
      rintro ⟨_, hlen⟩
      simp at hlen

theorem c1_conflict_iff_witness :
    ∃ c ∈ (match_all_books mgrTwoSec [kbEx]).2.2, c.kobo_book = kbEx :=
  (c1_conflict_iff mgrTwoSec [kbEx] kbEx (by decide)).1.mpr (by decide)

/-! ### C4: rating / genre classification of tag labels -/

/-- C4 counterexample: the bare label `"good"` is in the genre exclusion
vocabulary but not in the rating pattern list, so it is classified into
neither partition — contradicting "each label into exactly one of the two
partitions". -/
theorem c4_counterexample :
    getRatingCollections ["good"] = [] ∧ getGenreCollections ["good"] = [] := by
  decide

lemma rating_eq_filterMap (cols : List String) :
    getRatingCollections cols = cols.filterMap ratingOf := by
  unfold getRatingCollections ratingOf
  rw [show ratingPatterns.map strLower = ratingPatterns from by decide]

lemma canonical_mem_exclusion :
    ∀ p ∈ ratingPatterns, strLower (canonicalRating p) ∈ genreExclusion := by
  decide

lemma rating_lower_mem_exclusion (cols : List String) (r : String)
    (hr : r ∈ getRatingCollections cols) : strLower r ∈ genreExclusion := by
  rw [rating_eq_filterMap] at hr
  obtain ⟨col, _, hcol⟩ := List.mem_filterMap.mp hr
  unfold ratingOf at hcol
  dsimp only at hcol
  split at hcol
  · rename_i hpat
    cases Option.some.inj hcol
    exact canonical_mem_exclusion _ hpat
  · cases hcol

lemma genre_eq_filterMap (cols : List String) :
    getGenreCollections cols = cols.filterMap genreOf := by
  unfold getGenreCollections
  have hfun : ∀ col : String,
      (if strLower (strTrim (removeBarSpaceStr col)) ∉
            (getRatingCollections cols).map strLower ∧
          strLower (strTrim (removeBarSpaceStr col)) ∉ genreExclusion then
        some (strTrim (removeBarSpaceStr col))
      else none) = genreOf col := by
    intro col
    unfold genreOf
    by_cases hex : strLower (strTrim (removeBarSpaceStr col)) ∈ genreExclusion
    · rw [if_neg (by intro hc; exact hc.2 hex), if_pos hex]
    · rw [if_pos ?_, if_neg hex]
      refine ⟨?_, hex⟩
      intro hc
      obtain ⟨r, hrmem, hrlow⟩ := List.mem_map.mp hc
      exact hex (hrlow ▸ rating_lower_mem_exclusion cols r hrmem)
  exact List.filterMap_congr (fun col _ => hfun col)

/-- C4 (amended): each raw tag label is put into at most one of the two
partitions, never both.  A label is a rating iff its lowercased, stripped
form is one of the nine fixed patterns (four `"| "`-prefixed names and
five bare names), canonicalized so that prefixed `"| good"` becomes
`"Great"` and `"favorite"` becomes `"Favorites"`; a remaining label, with
the marker stripped, is a genre iff its lowercase form is outside the
fixed exclusion vocabulary — so labels such as bare `"good"` fall into
neither partition. -/
theorem c4_partition_amended (cols : List String) :
    getRatingCollections cols = cols.filterMap ratingOf ∧
    getGenreCollections cols = cols.filterMap genreOf ∧
    (∀ g ∈ getGenreCollections cols, ∀ r ∈ getRatingCollections cols,
      strLower g ≠ strLower r) ∧
    ratingOf "| good" = some "Great" ∧ ratingOf "favorite" = some "Favorites" := by
  refine ⟨rating_eq_filterMap cols, genre_eq_filterMap cols, ?_, by decide, by decide⟩
  intro g hg r hr
  have hrex := rating_lower_mem_exclusion cols r hr
  rw [genre_eq_filterMap] at hg
  obtain ⟨col, _, hcol⟩ := List.mem_filterMap.mp hg
  unfold genreOf at hcol
  dsimp only at hcol
  split at hcol
  · cases hcol
  · rename_i hex
    cases Option.some.inj hcol
    intro hc
    exact hex (hc ▸ hrex)

theorem c4_partition_amended_witness :
    getRatingCollections ["| good", "sweet fluff"] = ["Great"] ∧
    strLower "sweet fluff" ≠ strLower "Great" := by
  refine ⟨(c4_partition_amended ["| good", "sweet fluff"]).1.trans (by decide), ?_⟩
  exact (c4_partition_amended ["| good", "sweet fluff"]).2.2.1 "sweet fluff"
    (by decide) "Great" (by decide)

/-! ### C10: every match is counted exactly once -/

lemma length_filter_compl (p : BookMatch → Bool) (l : List BookMatch) :
    (l.filter p).length + (l.filter (fun a => !(p a))).length = l.length := by
  induction l with
  | nil => rfl
  | cons a l ih =>
    cases h : p a <;> simp [List.filter_cons, h] <;> omega

lemma partition_filter_ne (ms : List BookMatch) (K K' : String) (hne : K' ≠ K) :
    partitionFor (ms.filter (fun m => !(m.library.name == K))) K' =
      partitionFor ms K' := by
  induction ms with
  | nil => rfl
  | cons m rest ih =>
    by_cases h : m.library.name = K
    · have h1 : (m.library.name == K) = true := beq_iff_eq.mpr h
      have h2 : (m.library.name == K') = false :=
        beq_eq_false_iff_ne.mpr (fun hc => hne (hc.symm.trans h))
      simp only [partitionFor, List.filter_cons, h1, h2] at *
      simpa using ih
    · have h1 : (m.library.name == K) = false := beq_eq_false_iff_ne.mpr h
      simp only [partitionFor, List.filter_cons, h1] at *
      cases h2 : m.library.name == K' <;> simp [h2] <;> simpa using ih

lemma partition_sum (ks : List String) :
    ∀ ms : List BookMatch, ks.Nodup → (∀ m ∈ ms, m.library.name ∈ ks) →
      (ks.map (fun K => (partitionFor ms K).length)).sum = ms.length := by
  induction ks with
  | nil =>
    intro ms _ hcov
    cases ms with
    | nil => rfl
    | cons m rest => exact absurd (hcov m (List.mem_cons_self _ _)) (List.not_mem_nil _)
  | cons K ks ih =>
    intro ms hnd hcov
    have hK : K ∉ ks := (List.nodup_cons.mp hnd).1
    have hnd' := (List.nodup_cons.mp hnd).2
    have hmap : ks.map (fun K' => (partitionFor ms K').length) =
        ks.map (fun K' =>
          (partitionFor (ms.filter (fun m => !(m.library.name == K))) K').length) := by
      apply List.map_congr_left
      intro K' hK'
      rw [partition_filter_ne ms K K' (fun h => hK (h ▸ hK'))]
    have hcov' : ∀ m ∈ ms.filter (fun m => !(m.library.name == K)),
        m.library.name ∈ ks := by
      intro m hm
      have hmem := List.mem_filter.mp hm
      have hne : m.library.name ≠ K := by simpa using hmem.2
      rcases List.mem_cons.mp (hcov m hmem.1) with h | h
      · exact absurd h hne
      · exact h
    calc ((K :: ks).map fun K' => (partitionFor ms K').length).sum
        = (partitionFor ms K).length +
            (ks.map fun K' => (partitionFor ms K').length).sum := by simp
      _ = (partitionFor ms K).length +
            (ms.filter (fun m => !(m.library.name == K))).length := by
          rw [hmap, ih _ hnd' hcov']
      _ = ms.length := length_filter_compl _ ms

lemma processMatches_count (env : UpdateEnv) (part : List BookMatch) :
    (processMatches env part).1 + (processMatches env part).2.1 = part.length := by
  induction part with
  | nil => rfl
  | cons m rest ih =>
    simp only [processMatches]
    cases h : (update_book_metadata env m).1
    · simp [h]; omega
    · simp [h]; omega

lemma processLibrary_count (env : UpdateEnv) (K : String) (part : List BookMatch) :
    (processLibrary env K part).1 + (processLibrary env K part).2.1 = part.length := by
  unfold processLibrary
  by_cases h1 : env.connOk K = false
  · simp [h1]
  · by_cases h2 : env.backupOk K = false
    · simp [h1, h2]
    · by_cases h3 : (ensure_custom_columns env.tool K (env.columns K)).2.1 = false
      · simp [h1, h2, h3]
      · simp only [h1, h2, h3, if_false]
        exact processMatches_count env part

lemma bulkLoop_counts (env : UpdateEnv) (ms : List BookMatch) (ks : List String) :
    (bulkLoop env ms ks).1 =
      (ks.map (fun K => (processLibrary env K (partitionFor ms K)).1)).sum ∧
    (bulkLoop env ms ks).1 + (bulkLoop env ms ks).2.1 =
      (ks.map (fun K => (partitionFor ms K).length)).sum := by
  induction ks with
  | nil => exact ⟨rfl, rfl⟩
  | cons K ks ih =>
    constructor
    · simp only [bulkLoop, List.map_cons, List.sum_cons, ih.1]
    · simp only [bulkLoop, List.map_cons, List.sum_cons]
      have h1 := processLibrary_count env K (partitionFor ms K)
      have h2 := ih.2
      omega

/-- C10: for every input match list and environment, the real bulk update
counts every match exactly once: `successful + failed = total`, with
`total` the input length — including matches whose whole store partition
is failed by a probe, backup, or provisioning error. -/
theorem c10_stats_partition (env : UpdateEnv) (ms : List BookMatch) :
    (bulk_update env ms).1.total = ms.length ∧
    (bulk_update env ms).1.successful + (bulk_update env ms).1.failed = ms.length := by
  refine ⟨rfl, ?_⟩
  show (bulkLoop env ms (libKeys ms)).1 + (bulkLoop env ms (libKeys ms)).2.1 = ms.length
  rw [(bulkLoop_counts env ms (libKeys ms)).2]
  exact partition_sum (libKeys ms) ms (libKeys_nodup ms)
    (fun m hm => (mem_libKeys ms m.library.name).mpr ⟨m, hm, rfl⟩)

/-! ### C8: idempotent column provisioning -/

lemma ensure_fst (tool : ColumnTool) (lib : String) (st : List String) :
    (ensure_custom_columns tool lib st).1 =
      if "myratings" ∈ st then
        (if "my_genres" ∈ st then st else (create_custom_column tool st "my_genres").1)
      else
        (if "my_genres" ∈ st then (create_custom_column tool st "myratings").1
         else (create_custom_column tool
            (create_custom_column tool st "myratings").1 "my_genres").1) := by
  unfold ensure_custom_columns
  by_cases hR : "myratings" ∈ st <;> by_cases hG : "my_genres" ∈ st <;>
    simp [hR, hG]

lemma ensure_snd_of_mem (tool : ColumnTool) (lib : String) (st : List String)
    (h1 : "myratings" ∈ st) (h2 : "my_genres" ∈ st) :
    (ensure_custom_columns tool lib st).2.1 = true := by
  unfold ensure_custom_columns
  simp [h1, h2]

/-- C8: if the tool signals success on creation, reports existing columns
with an "already exists" diagnostic (or succeeds), and makes/keeps a
column present, then `create_custom_column` treats an existing column as
success, and running `ensure_custom_columns` twice in a row never reports
failure on the second invocation. -/
theorem c8_provision_idempotent (tool : ColumnTool) (lib : String) (st : List String)
    (hExists : ∀ label s, label ∈ s →
      (tool label s).2.exitCode = 0 ∨ hasAlreadyExists (tool label s).2.stderr = true)
    (hAdds : ∀ label s, label ∈ (tool label s).1)
    (hKeeps : ∀ label x s, x ∈ s → x ∈ (tool label s).1) :
    (∀ label, label ∈ st → (create_custom_column tool st label).2 = true) ∧
    (ensure_custom_columns tool lib (ensure_custom_columns tool lib st).1).2.1 = true := by
  constructor
  · intro label hl
    unfold create_custom_column
    rcases hExists label st hl with h | h
    · simp [h]
    · simp [h]
  · have hmem1 : "myratings" ∈ (ensure_custom_columns tool lib st).1 := by
      rw [ensure_fst]
      by_cases hR : "myratings" ∈ st
      · rw [if_pos hR]
        by_cases hG : "my_genres" ∈ st
        · rw [if_pos hG]; exact hR
        · rw [if_neg hG]; exact hKeeps _ _ _ hR
      · rw [if_neg hR]
        by_cases hG : "my_genres" ∈ st
        · rw [if_pos hG]; exact hAdds _ _
        · rw [if_neg hG]; exact hKeeps _ _ _ (hAdds _ _)
    have hmem2 : "my_genres" ∈ (ensure_custom_columns tool lib st).1 := by
      rw [ensure_fst]
      by_cases hR : "myratings" ∈ st
      · rw [if_pos hR]
        by_cases hG : "my_genres" ∈ st
        · rw [if_pos hG]; exact hG
        · rw [if_neg hG]; exact hAdds _ _
      · rw [if_neg hR]
        by_cases hG : "my_genres" ∈ st
        · rw [if_pos hG]; exact hKeeps _ _ _ hG
        · rw [if_neg hG]; exact hAdds _ _
    exact ensure_snd_of_mem tool lib _ hmem1 hmem2

lemma toolW_exists : ∀ label s, label ∈ s →
    (toolW label s).2.exitCode = 0 ∨ hasAlreadyExists (toolW label s).2.stderr = true := by
  intro label s h
  right
  simp only [toolW, if_pos h]
  decide

lemma toolW_adds : ∀ label s, label ∈ (toolW label s).1 := by
  intro label s
  by_cases h : label ∈ s
  · simp [toolW, h]
  · simp [toolW, h]

lemma toolW_keeps : ∀ label x s, x ∈ s → x ∈ (toolW label s).1 := by
  intro label x s hx
  by_cases h : label ∈ s
  · simp only [toolW, if_pos h]
    exact hx
  · simp only [toolW, if_neg h]
    exact List.mem_cons_of_mem _ hx

theorem c8_provision_idempotent_witness :
    (ensure_custom_columns toolW "MCR" ((ensure_custom_columns toolW "MCR" []).1)).2.1 =
      true :=
  (c8_provision_idempotent toolW "MCR" [] toolW_exists toolW_adds toolW_keeps).2

/-! ### C7: per-store failure isolation, backup before mutation -/

lemma ucc_writes (env : UpdateEnv) (n : String) (bookId : Nat) (col : String)
    (vs : List String) :
    ∀ e ∈ (update_custom_column env n bookId col vs).2, ∃ v,
      e = Effect.write n bookId col v := by
  intro e he
  unfold update_custom_column at he
  by_cases h : vs = []
  · rw [if_pos h] at he; cases he
  · rw [if_neg h] at he
    exact ⟨joinComma vs, List.mem_singleton.mp he⟩

lemma ubm_writes (env : UpdateEnv) (m : BookMatch) :
    ∀ e ∈ (update_book_metadata env m).2, ∃ bookId col v,
      e = Effect.write m.library.name bookId col v := by
  intro e he
  unfold update_book_metadata at he
  dsimp only at he
  split at he
  · obtain ⟨v, hv⟩ := ucc_writes env _ _ _ _ e he
    exact ⟨_, _, v, hv⟩
  · rcases List.mem_append.mp he with h | h
    · obtain ⟨v, hv⟩ := ucc_writes env _ _ _ _ e h
      exact ⟨_, _, v, hv⟩
    · obtain ⟨v, hv⟩ := ucc_writes env _ _ _ _ e h
      exact ⟨_, _, v, hv⟩

lemma partitionFor_names (ms : List BookMatch) (K : String) :
    ∀ m ∈ partitionFor ms K, m.library.name = K := by
  intro m hm
  exact beq_iff_eq.mp (List.mem_filter.mp hm).2

lemma processMatches_writes (env : UpdateEnv) (K : String) (part : List BookMatch)
    (hpart : ∀ m ∈ part, m.library.name = K) :
    ∀ e ∈ (processMatches env part).2.2, ∃ bookId col v,
      e = Effect.write K bookId col v := by
  induction part with
  | nil => intro e he; cases he
  | cons m rest ih =>
    intro e he
    have hm : m.library.name = K := hpart m (List.mem_cons_self _ _)
    have hrest : ∀ x ∈ rest, x.library.name = K :=
      fun x hx => hpart x (List.mem_cons_of_mem _ hx)
    simp only [processMatches] at he
    have hmem : e ∈ (update_book_metadata env m).2 ++ (processMatches env rest).2.2 := by
      split at he <;> exact he
    rcases List.mem_append.mp hmem with h | h
    · obtain ⟨bookId, col, v, hv⟩ := ubm_writes env m e h
      exact ⟨bookId, col, v, hm ▸ hv⟩
    · exact ih hrest e h

lemma ensure_trace (tool : ColumnTool) (lib : String) (st : List String) :
    (ensure_custom_columns tool lib st).2.2 =
      (if "myratings" ∈ st then [] else [Effect.provision lib "myratings"]) ++
      (if "my_genres" ∈ st then [] else [Effect.provision lib "my_genres"]) := by
  unfold ensure_custom_columns
  by_cases hR : "myratings" ∈ st <;> by_cases hG : "my_genres" ∈ st <;>
    simp [hR, hG]

lemma ensure_effects (tool : ColumnTool) (lib : String) (st : List String) :
    ∀ e ∈ (ensure_custom_columns tool lib st).2.2, ∃ c, e = Effect.provision lib c := by
  intro e he
  rw [ensure_trace] at he
  rcases List.mem_append.mp he with h | h <;>
    · split at h
      · cases h
      · exact ⟨_, List.mem_singleton.mp h⟩

lemma processLibrary_fail_counts (env : UpdateEnv) (K : String) (part : List BookMatch)
    (hfail : storeOkB env K = false) :
    (processLibrary env K part).1 = 0 ∧
    (processLibrary env K part).2.1 = part.length := by
  by_cases h1 : env.connOk K = false
  · unfold processLibrary
    rw [if_pos h1]
    exact ⟨rfl, rfl⟩
  · by_cases h2 : env.backupOk K = false
    · unfold processLibrary
      rw [if_neg h1, if_pos h2]
      exact ⟨rfl, rfl⟩
    · have h1' : env.connOk K = true := Bool.not_eq_false _ |>.mp h1
      have h2' : env.backupOk K = true := Bool.not_eq_false _ |>.mp h2
      have h3 : (ensure_custom_columns env.tool K (env.columns K)).2.1 = false := by
        unfold storeOkB at hfail
        rw [h1', h2'] at hfail
        simpa using hfail
      unfold processLibrary
      rw [if_neg h1, if_neg h2]
      dsimp only
      rw [if_pos h3]
      exact ⟨rfl, rfl⟩

lemma processLibrary_writes (env : UpdateEnv) (K : String) (part : List BookMatch)
    (hpart : ∀ m ∈ part, m.library.name = K) :
    ∀ e ∈ (processLibrary env K part).2.2, ∀ L bookId col v,
      e = Effect.write L bookId col v → L = K ∧ storeOkB env K = true := by
  intro e he L bookId col v heq
  subst heq
  by_cases h1 : env.connOk K = false
  · unfold processLibrary at he
    rw [if_pos h1] at he
    cases he
  · by_cases h2 : env.backupOk K = false
    · unfold processLibrary at he
      rw [if_neg h1, if_pos h2] at he
      cases he
    · by_cases h3 : (ensure_custom_columns env.tool K (env.columns K)).2.1 = false
      · unfold processLibrary at he
        rw [if_neg h1, if_neg h2] at he
        dsimp only at he
        rw [if_pos h3] at he
        rcases List.mem_cons.mp he with h | h
        · cases h
        · obtain ⟨c, hc⟩ := ensure_effects env.tool K (env.columns K) _ h
          cases hc
      · have h1' : env.connOk K = true := Bool.not_eq_false _ |>.mp h1
        have h2' : env.backupOk K = true := Bool.not_eq_false _ |>.mp h2
        have h3' : (ensure_custom_columns env.tool K (env.columns K)).2.1 = true :=
          Bool.not_eq_false _ |>.mp h3
        have hok : storeOkB env K = true := by
          unfold storeOkB; rw [h1', h2', h3']; rfl
        unfold processLibrary at he
        rw [if_neg h1, if_neg h2] at he
        dsimp only at he
        rw [if_neg h3] at he
        rcases List.mem_cons.mp he with h | h
        · cases h
        · rcases List.mem_append.mp h with h | h
          · obtain ⟨c, hc⟩ := ensure_effects env.tool K (env.columns K) _ h
            cases hc
          · obtain ⟨bookId', col', v', hv⟩ := processMatches_writes env K part hpart _ h
            cases hv
            exact ⟨rfl, hok⟩

lemma bulkLoop_writes (env : UpdateEnv) (ms : List BookMatch) :
    ∀ (ks : List String), ∀ e ∈ (bulkLoop env ms ks).2.2.2, ∀ L bookId col v,
      e = Effect.write L bookId col v → storeOkB env L = true := by
  intro ks
  induction ks with
  | nil => intro e he; cases he
  | cons K ks ih =>
    intro e he L bookId col v heq
    simp only [bulkLoop] at he
    rcases List.mem_append.mp he with h | h
    · obtain ⟨hL, hok⟩ :=
        processLibrary_writes env K (partitionFor ms K) (partitionFor_names ms K)
          e h L bookId col v heq
      exact hL ▸ hok
    · exact ih e h L bookId col v heq

lemma wbu_append (es1 : List Effect) : ∀ (es2 : List Effect) (backed : List String),
    writesBackedUpFrom backed (es1 ++ es2) =
      (writesBackedUpFrom backed es1 && writesBackedUpFrom (afterBackups backed es1) es2) := by
  induction es1 with
  | nil => intro es2 backed; simp [writesBackedUpFrom, afterBackups]
  | cons e rest ih =>
    intro es2 backed
    cases e with
    | backup L => simp [writesBackedUpFrom, afterBackups, ih]
    | provision L c => simp [writesBackedUpFrom, afterBackups, ih]
    | write L bookId c v =>
      simp [writesBackedUpFrom, afterBackups, ih, Bool.and_assoc]

lemma wbu_of_writes_mem : ∀ (es : List Effect) (backed : List String),
    (∀ e ∈ es, ∀ L bookId col v, e = Effect.write L bookId col v → L ∈ backed) →
    writesBackedUpFrom backed es = true := by
  intro es
  induction es with
  | nil => intro backed _; rfl
  | cons e rest ih =>
    intro backed h
    cases e with
    | backup L =>
      rw [writesBackedUpFrom]
      exact ih _ (fun e he L' bookId col v heq =>
        List.mem_cons_of_mem _ (h e (List.mem_cons_of_mem _ he) L' bookId col v heq))
    | provision L c =>
      rw [writesBackedUpFrom]
      exact ih _ (fun e he L' bookId col v heq =>
        h e (List.mem_cons_of_mem _ he) L' bookId col v heq)
    | write L bookId c v =>
      rw [writesBackedUpFrom]
      have hL : L ∈ backed := h _ (List.mem_cons_self _ _) L bookId c v rfl
      simp only [hL, decide_True, Bool.true_and]
      exact ih _ (fun e he L' bookId' col v' heq =>
        h e (List.mem_cons_of_mem _ he) L' bookId' col v' heq)

lemma afterBackups_no_backup (backed : List String) :
    ∀ es : List Effect, (∀ e ∈ es, ∀ L, e ≠ Effect.backup L) →
      afterBackups backed es = backed := by
  intro es
  induction es generalizing backed with
  | nil => intro _; rfl
  | cons e rest ih =>
    intro h
    cases e with
    | backup L => exact absurd rfl (h _ (List.mem_cons_self _ _) L)
    | provision L c =>
      rw [afterBackups]
      exact ih _ (fun e he L' => h e (List.mem_cons_of_mem _ he) L')
    | write L bookId c v =>
      rw [afterBackups]
      exact ih _ (fun e he L' => h e (List.mem_cons_of_mem _ he) L')

lemma ensure_no_backup (tool : ColumnTool) (lib : String) (st : List String) :
    ∀ e ∈ (ensure_custom_columns tool lib st).2.2, ∀ L, e ≠ Effect.backup L := by
  intro e he L heq
  obtain ⟨c, hc⟩ := ensure_effects tool lib st e he
  rw [heq] at hc
  cases hc

lemma processLibrary_wbu (env : UpdateEnv) (K : String) (part : List BookMatch)
    (hpart : ∀ m ∈ part, m.library.name = K) (backed : List String) :
    writesBackedUpFrom backed (processLibrary env K part).2.2 = true := by
  by_cases h1 : env.connOk K = false
  · unfold processLibrary
    rw [if_pos h1]
    rfl
  · by_cases h2 : env.backupOk K = false
    · unfold processLibrary
      rw [if_neg h1, if_pos h2]
      rfl
    · by_cases h3 : (ensure_custom_columns env.tool K (env.columns K)).2.1 = false
      · unfold processLibrary
        rw [if_neg h1, if_neg h2]
        dsimp only
        rw [if_pos h3]
        rw [writesBackedUpFrom]
        exact wbu_of_writes_mem _ _ (fun e he L bookId col v heq => by
          obtain ⟨c, hc⟩ := ensure_effects env.tool K (env.columns K) e he
          rw [heq] at hc; cases hc)
      · unfold processLibrary
        rw [if_neg h1, if_neg h2]
        dsimp only
        rw [if_neg h3]
        show writesBackedUpFrom backed
          (Effect.backup K ::
            ((ensure_custom_columns env.tool K (env.columns K)).2.2 ++
             (processMatches env part).2.2)) = true
        rw [writesBackedUpFrom, wbu_append]
        have hens : writesBackedUpFrom (K :: backed)
            (ensure_custom_columns env.tool K (env.columns K)).2.2 = true :=
          wbu_of_writes_mem _ _ (fun e he L bookId col v heq => by
            obtain ⟨c, hc⟩ := ensure_effects env.tool K (env.columns K) e he
            rw [heq] at hc; cases hc)
        have hafter : afterBackups (K :: backed)
            (ensure_custom_columns env.tool K (env.columns K)).2.2 = K :: backed :=
          afterBackups_no_backup _ _ (ensure_no_backup env.tool K (env.columns K))
        have hwrites : writesBackedUpFrom (K :: backed)
            (processMatches env part).2.2 = true :=
          wbu_of_writes_mem _ _ (fun e he L bookId col v heq => by
            obtain ⟨bookId', col', v', hv⟩ := processMatches_writes env K part hpart e he
            rw [heq] at hv
            cases hv
            exact List.mem_cons_self _ _)
        rw [hens, hafter, hwrites]
        rfl

lemma bulkLoop_wbu (env : UpdateEnv) (ms : List BookMatch) :
    ∀ (ks : List String) (backed : List String),
      writesBackedUpFrom backed (bulkLoop env ms ks).2.2.2 = true := by
  intro ks
  induction ks with
  | nil => intro backed; rfl
  | cons K ks ih =>
    intro backed
    simp only [bulkLoop]
    rw [wbu_append,
      processLibrary_wbu env K (partitionFor ms K) (partitionFor_names ms K) backed,
      ih _]
    rfl

/-- C7: if a store's connectivity probe, backup, or schema provisioning
fails, every match in that store's partition is counted as failed and
none as successful, no field write is ever issued against that store in
the whole run, every field write in the run's trace is preceded by a
successful backup of its store, and the run's success count is still the
sum over all store partitions (sibling stores keep being processed). -/
theorem c7_store_failure_isolated (env : UpdateEnv) (ms : List BookMatch) (K : String)
    (hfail : storeOkB env K = false) :
    (processLibrary env K (partitionFor ms K)).1 = 0 ∧
    (processLibrary env K (partitionFor ms K)).2.1 = (partitionFor ms K).length ∧
    (∀ e ∈ (bulk_update env ms).2, isWriteTo K e = false) ∧
    writesBackedUpFrom [] (bulk_update env ms).2 = true ∧
    (bulk_update env ms).1.successful =
      ((libKeys ms).map (fun k => (processLibrary env k (partitionFor ms k)).1)).sum := by
  refine ⟨(processLibrary_fail_counts env K _ hfail).1,
    (processLibrary_fail_counts env K _ hfail).2, ?_, ?_, ?_⟩
  · intro e he
    cases e with
    | backup L => rfl
    | provision L c => rfl
    | write L bookId col v =>
      have hok := bulkLoop_writes env ms (libKeys ms) _ he L bookId col v rfl
      refine beq_eq_false_iff_ne.mpr (fun hc => ?_)
      rw [hc] at hok
      rw [hok] at hfail
      cases hfail
  · exact bulkLoop_wbu env ms (libKeys ms) []
  · exact (bulkLoop_counts env ms (libKeys ms)).1

theorem c7_store_failure_isolated_witness :
    storeOkB envC7 "MCR" = false ∧
    (processLibrary envC7 "MCR" (partitionFor msC7 "MCR")).1 = 0 ∧
    (processLibrary envC7 "MCR" (partitionFor msC7 "MCR")).2.1 =
      (partitionFor msC7 "MCR").length ∧
    writesBackedUpFrom [] (bulk_update envC7 msC7).2 = true := by
  have h := c7_store_failure_isolated envC7 msC7 "MCR" (by decide)
  exact ⟨by decide, h.1, h.2.1, h.2.2.2.1⟩

theorem c9_stage_preconditions_witness :
    match_books ⟨[], [], []⟩ =
      .error "No Kobo books loaded. Call load_kobo_data() first." ∧
    update_calibre_metadata envNull false ⟨[], [], []⟩ =
      .error "No book matches found. Call match_books() first." :=
  ⟨(c9_stage_preconditions envNull ⟨[], [], []⟩).1 rfl,
   (c9_stage_preconditions envNull ⟨[], [], []⟩).2.2.1 rfl⟩
